import Mathlib

/-!
Verification of the Monte-Carlo European barrier option pricing engine
(`barrier_options.py`, class `BarrierOption`).

The engine is shallowly embedded over `ℝ`: numpy arrays become `List ℝ`
(batches become `List (List ℝ)`), and the numpy reductions `np.max`,
`np.min`, `np.mean`, `np.cumprod` and "last element" indexing become the
helper functions `npMax`, `npMin`, `npMean`, `cumprod`, `npLast` below.
The standard-normal draws `np.random.normal(size=(num_iters, steps))` are
an arbitrary matrix `Z : ℕ → ℕ → ℝ` (row = path, column = step).
-/

namespace BarrierOptions

/-- `np.max` of a row (a nonempty list in every use made by the program;
the `[]` case is arbitrary, numpy raises on an empty reduction). -/
noncomputable def npMax : List ℝ → ℝ
  | [] => 0
  | x :: xs => xs.foldl max x

/-- `np.min` of a row (same conventions as `npMax`). -/
noncomputable def npMin : List ℝ → ℝ
  | [] => 0
  | x :: xs => xs.foldl min x

/-- `row[-1]`, the last element of a row (rows are nonempty in every use). -/
def npLast (l : List ℝ) : ℝ := l.getLast?.getD 0

/-- `np.mean`: sum divided by length (`0/0 = 0` on the empty list, where
numpy instead returns `NaN` with a runtime warning). -/
noncomputable def npMean (l : List ℝ) : ℝ := l.sum / l.length

/-- Running products, `np.cumprod` along a row: the accumulator starts at 1. -/
def cumprodAux (acc : ℝ) : List ℝ → List ℝ
  | [] => []
  | x :: xs => (acc * x) :: cumprodAux (acc * x) xs

/-- `np.cumprod` of a row: element `k` is the product of the first `k+1` inputs. -/
def cumprod (l : List ℝ) : List ℝ := cumprodAux 1 l

/-- Errors surfaced by the engine.  The source signals bad constructor input
by printing and calling `sys.exit()`; the spec's taxonomy names that outcome
`InvalidContract`.  `invalidGrid` is the spec's name for a rejected grid (the
source never actually produces it), and `zeroDivision` models the Python
`ZeroDivisionError` raised by `self.T/steps` when `steps = 0`. -/
inductive EngineError where
  | invalidContract
  | invalidGrid
  | zeroDivision
deriving DecidableEq

/-- The `BarrierOption` object: the fields stored by `__init__` (lines 32-39).
Option and barrier kinds are stored as the raw strings the source dispatches on. -/
structure BarrierOption where
  option_type : String
  barrier_type : String
  S0 : ℝ
  K : ℝ
  B : ℝ
  T : ℝ
  volatility : ℝ
  risk_free_rate : ℝ

/-- `BarrierOption.__init__` (lines 20-39): validates `option_type`,
`barrier_type` and `volatility` (printing and exiting on failure, modelled as
`EngineError.invalidContract`), then stores all eight fields.  Note that the
source contains no check at all on `S0`, `K`, `B`, `T` or `risk_free_rate`. -/
noncomputable def mkBarrierOption (option_type barrier_type : String)
    (S0 K B T volatility risk_free_rate : ℝ) : Except EngineError BarrierOption :=
  if option_type ≠ "call" ∧ option_type ≠ "put" then
    Except.error EngineError.invalidContract
  else if barrier_type ≠ "up_and_out" ∧ barrier_type ≠ "down_and_out" ∧
      barrier_type ≠ "up_and_in" ∧ barrier_type ≠ "down_and_in" then
    Except.error EngineError.invalidContract
  else if volatility < 0 ∨ volatility > 1 then
    Except.error EngineError.invalidContract
  else
    Except.ok ⟨option_type, barrier_type, S0, K, B, T, volatility, risk_free_rate⟩

/-- The constraints `__init__` actually enforces on a constructed object. -/
def ValidContract (o : BarrierOption) : Prop :=
  (o.option_type = "call" ∨ o.option_type = "put") ∧
  (o.barrier_type = "up_and_out" ∨ o.barrier_type = "down_and_out" ∨
    o.barrier_type = "up_and_in" ∨ o.barrier_type = "down_and_in") ∧
  0 ≤ o.volatility ∧ o.volatility ≤ 1

/-- `BarrierOption.present_value` (lines 58-71):
`np.array(value) * np.exp(-risk_free_rate * T)` elementwise. -/
noncomputable def present_value (o : BarrierOption) (value : List ℝ) : List ℝ :=
  value.map (fun v => v * Real.exp (-o.risk_free_rate * o.T))

/-- `BarrierOption.vanilla_payoff` (lines 74-94) at a single expiration price:
`max(price - K, 0)` for a call, `max(K - price, 0)` otherwise (the source's
`else` branch covers everything that is not `"call"`). -/
noncomputable def vanilla_payoff (o : BarrierOption) (expiration_price : ℝ) : ℝ :=
  if o.option_type = "call" then max (expiration_price - o.K) 0
  else max (o.K - expiration_price) 0

/-- Row entry of `np.where(np.max(price_series, axis=1) >= B, 1, 0)` (line 114). -/
noncomputable def upBarrierReached (o : BarrierOption) (p : List ℝ) : ℕ :=
  if npMax p ≥ o.B then 1 else 0

/-- Row entry of `np.where(np.min(price_series, axis=1) <= B, 1, 0)` (line 135). -/
noncomputable def downBarrierReached (o : BarrierOption) (p : List ℝ) : ℕ :=
  if npMin p ≤ o.B then 1 else 0

/-- `BarrierOption.contract_payoff` (lines 98-153).  The source computes a
vectorized `barrier_reached` 0/1 array and then loops over its indices,
reading the aligned row's last element; since the two arrays are
index-aligned, that loop is the per-row `List.map` below. -/
noncomputable def contract_payoff (o : BarrierOption) (price_series : List (List ℝ)) :
    List ℝ :=
  if o.barrier_type = "up_and_out" ∨ o.barrier_type = "up_and_in" then
    if o.barrier_type = "up_and_out" then
      price_series.map (fun p =>
        if upBarrierReached o p = 1 then 0 else vanilla_payoff o (npLast p))
    else
      price_series.map (fun p =>
        if upBarrierReached o p = 0 then 0 else vanilla_payoff o (npLast p))
  else
    if o.barrier_type = "down_and_out" then
      price_series.map (fun p =>
        if downBarrierReached o p = 1 then 0 else vanilla_payoff o (npLast p))
    else
      price_series.map (fun p =>
        if downBarrierReached o p = 0 then 0 else vanilla_payoff o (npLast p))

/-- One simulated GBM path (lines 173-177, one row): `steps` per-step factors
`exp((r - 0.5·σ²)·dt + σ·sqrt(dt)·Z_j)` are accumulated by `np.cumprod`,
scaled by `S0`, and `S0` itself is prepended as element 0. -/
noncomputable def gbm_path (o : BarrierOption) (steps : ℕ) (Z : ℕ → ℝ) : List ℝ :=
  let dt : ℝ := o.T / steps
  let step_volatility : ℝ := o.volatility * Real.sqrt dt
  let factors : List ℝ :=
    (List.range steps).map (fun j =>
      Real.exp ((o.risk_free_rate - 0.5 * o.volatility ^ 2) * dt + step_volatility * Z j))
  o.S0 :: (cumprod factors).map (fun c => o.S0 * c)

/-- The batch of `num_iters` simulated rows (lines 175-177): row `i` uses the
`i`-th row of the normal draw matrix `Z`. -/
noncomputable def gbm_batch (o : BarrierOption) (steps num_iters : ℕ)
    (Z : ℕ → ℕ → ℝ) : List (List ℝ) :=
  (List.range num_iters).map (fun i => gbm_path o steps (Z i))

/-- The pricing step applied to an already-generated batch (lines 179-181):
payoffs, elementwise discounting, then `np.mean`. -/
noncomputable def price_of_batch (o : BarrierOption) (batch : List (List ℝ)) : ℝ :=
  npMean (present_value o (contract_payoff o batch))

/-- `BarrierOption.monte_carlo_pricing` (lines 156-213), with the draws made
explicit: generate the GBM batch, evaluate payoffs, discount, average. -/
noncomputable def monte_carlo_pricing (o : BarrierOption) (steps num_iters : ℕ)
    (Z : ℕ → ℕ → ℝ) : ℝ :=
  price_of_batch o (gbm_batch o steps num_iters Z)

/-- `monte_carlo_pricing` together with its Python failure behaviour.  The
source performs no grid validation whatsoever: with `steps = 0` the expression
`self.T/steps` (line 174) raises `ZeroDivisionError` before any sampling, and
every other grid (including `num_iters = 0`, whose empty mean is numpy `NaN`)
completes normally. -/
noncomputable def monte_carlo_pricing_run (o : BarrierOption) (steps num_iters : ℕ)
    (Z : ℕ → ℕ → ℝ) : Except EngineError ℝ :=
  if steps = 0 then Except.error EngineError.zeroDivision
  else Except.ok (monte_carlo_pricing o steps num_iters Z)

/-- The state of numpy's process-global pseudo-random generator, abstractly. -/
structure RNGState where
  state : ℕ

/-- `np.random.seed(seed)`: the global generator state after seeding is a
function of the seed alone. -/
def seed_rng (seed : ℕ) : RNGState := ⟨seed⟩

/-- Lines 170-175 of `monte_carlo_pricing` with the random source explicit:
`prev` is the global generator state existing before the call; an explicit
seed replaces it via `np.random.seed`; the normal draw matrix is a
deterministic function `sample` of the generator state. -/
noncomputable def monte_carlo_pricing_seeded (sample : RNGState → ℕ → ℕ → ℝ)
    (o : BarrierOption) (steps num_iters : ℕ) (prev : RNGState) (seed : Option ℕ) : ℝ :=
  let st := match seed with
    | some s => seed_rng s
    | none => prev
  monte_carlo_pricing o steps num_iters (sample st)

/-! ### Helper lemmas -/

lemma le_foldl_max (xs : List ℝ) (a : ℝ) : a ≤ xs.foldl max a := by
  induction xs generalizing a with
  | nil => exact le_refl a
  | cons y ys ih => exact le_trans (le_max_left a y) (ih (max a y))

lemma foldl_min_le (xs : List ℝ) (a : ℝ) : xs.foldl min a ≤ a := by
  induction xs generalizing a with
  | nil => exact le_refl a
  | cons y ys ih => exact le_trans (ih (min a y)) (min_le_left a y)

lemma le_npMax_head (x : ℝ) (xs : List ℝ) : x ≤ npMax (x :: xs) :=
  le_foldl_max xs x

lemma npMin_head_le (x : ℝ) (xs : List ℝ) : npMin (x :: xs) ≤ x :=
  foldl_min_le xs x

lemma cumprodAux_length (a : ℝ) (l : List ℝ) : (cumprodAux a l).length = l.length := by
  induction l generalizing a with
  | nil => rfl
  | cons x xs ih => simp [cumprodAux, ih]

lemma cumprod_length (l : List ℝ) : (cumprod l).length = l.length :=
  cumprodAux_length 1 l

lemma cumprodAux_getD (a : ℝ) (l : List ℝ) (k : ℕ) (hk : k < l.length) :
    (cumprodAux a l).getD k 0 = a * (l.take (k + 1)).prod := by
  induction l generalizing a k with
  | nil => simp at hk
  | cons x xs ih =>
    cases k with
    | zero => simp [cumprodAux]
    | succ k =>
      have hk' : k < xs.length := by simpa using hk
      simp only [cumprodAux, List.getD_cons_succ, List.take_succ_cons, List.prod_cons]
      rw [ih (a * x) k hk']
      ring

lemma cumprod_getD (l : List ℝ) (k : ℕ) (hk : k < l.length) :
    (cumprod l).getD k 0 = (l.take (k + 1)).prod := by
  rw [cumprod, cumprodAux_getD 1 l k hk, one_mul]

lemma prod_map_range (f : ℕ → ℝ) (n : ℕ) :
    ((List.range n).map f).prod = ∏ j ∈ Finset.range n, f j := by
  induction n with
  | zero => simp
  | succ n ih =>
    rw [List.range_succ, List.map_append, List.prod_append, Finset.prod_range_succ, ih]
    simp

lemma list_sum_eq_sum_getD (l : List ℝ) :
    l.sum = ∑ i ∈ Finset.range l.length, l.getD i 0 := by
  induction l with
  | nil => simp
  | cons x xs ih =>
    rw [List.sum_cons, List.length_cons, Finset.sum_range_succ']
    simp only [List.getD_cons_succ, List.getD_cons_zero]
    rw [← ih]
    ring

lemma sum_map_add {α : Type} (l : List α) (f g : α → ℝ) :
    (l.map (fun x => f x + g x)).sum = (l.map f).sum + (l.map g).sum := by
  induction l with
  | nil => simp
  | cons x xs ih => simp only [List.map_cons, List.sum_cons, ih]; ring

lemma ite_one_zero_eq_one (c : Prop) [Decidable c] :
    ((if c then (1 : ℕ) else 0) = 1) ↔ c := by
  split_ifs with h <;> simp [h]

lemma ite_one_zero_eq_zero (c : Prop) [Decidable c] :
    ((if c then (1 : ℕ) else 0) = 0) ↔ ¬c := by
  split_ifs with h <;> simp [h]

lemma npMean_replicate (n : ℕ) (c : ℝ) (hn : n ≠ 0) :
    npMean (List.replicate n c) = c := by
  rw [npMean, List.sum_replicate, List.length_replicate, nsmul_eq_mul]
  field_simp

/-- The per-row function that `contract_payoff` applies: four branches keyed
on `barrier_type`, exactly as in lines 112-153 of the source. -/
noncomputable def code_path_payoff (o : BarrierOption) (p : List ℝ) : ℝ :=
  if o.barrier_type = "up_and_out" ∨ o.barrier_type = "up_and_in" then
    if o.barrier_type = "up_and_out" then
      if upBarrierReached o p = 1 then 0 else vanilla_payoff o (npLast p)
    else
      if upBarrierReached o p = 0 then 0 else vanilla_payoff o (npLast p)
  else
    if o.barrier_type = "down_and_out" then
      if downBarrierReached o p = 1 then 0 else vanilla_payoff o (npLast p)
    else
      if downBarrierReached o p = 0 then 0 else vanilla_payoff o (npLast p)

lemma contract_payoff_eq_map (o : BarrierOption) (l : List (List ℝ)) :
    contract_payoff o l = l.map (code_path_payoff o) := by
  unfold contract_payoff code_path_payoff
  split_ifs <;> simp_all

lemma contract_payoff_getD (o : BarrierOption) (paths : List (List ℝ)) (i : ℕ)
    (hi : i < paths.length) :
    (contract_payoff o paths).getD i 0 = code_path_payoff o (paths.getD i []) := by
  rw [contract_payoff_eq_map,
    List.getD_eq_getElem _ _ (by simpa using hi), List.getElem_map,
    List.getD_eq_getElem _ _ hi]

lemma gbm_batch_getD (o : BarrierOption) (steps num_iters : ℕ) (Z : ℕ → ℕ → ℝ)
    (i : ℕ) (hi : i < num_iters) :
    (gbm_batch o steps num_iters Z).getD i [] = gbm_path o steps (Z i) := by
  rw [gbm_batch, List.getD_eq_getElem _ _ (by simpa using hi), List.getElem_map,
    List.getElem_range]

lemma gbm_path_length (o : BarrierOption) (steps : ℕ) (Z : ℕ → ℝ) :
    (gbm_path o steps Z).length = steps + 1 := by
  simp [gbm_path, cumprod_length]

lemma gbm_path_getD (o : BarrierOption) (steps : ℕ) (Z : ℕ → ℝ) (k : ℕ)
    (hk1 : 1 ≤ k) (hk2 : k ≤ steps) :
    (gbm_path o steps Z).getD k 0 =
      o.S0 * ∏ j ∈ Finset.range k,
        Real.exp ((o.risk_free_rate - 0.5 * o.volatility ^ 2) * (o.T / steps) +
          o.volatility * Real.sqrt (o.T / steps) * Z j) := by
  cases k with
  | zero => omega
  | succ m =>
    have hm : m < steps := by omega
    simp only [gbm_path, List.getD_cons_succ]
    have hmap : m < ((List.range steps).map fun j =>
        Real.exp ((o.risk_free_rate - 0.5 * o.volatility ^ 2) * (o.T / steps) +
          o.volatility * Real.sqrt (o.T / steps) * Z j)).length := by
      simpa using hm
    have hcum : m < (cumprod ((List.range steps).map fun j =>
        Real.exp ((o.risk_free_rate - 0.5 * o.volatility ^ 2) * (o.T / steps) +
          o.volatility * Real.sqrt (o.T / steps) * Z j))).length := by
      rw [cumprod_length]; exact hmap
    rw [List.getD_eq_getElem _ _ (by simpa using hcum), List.getElem_map]
    congr 1
    rw [← List.getD_eq_getElem _ 0 hcum, cumprod_getD _ _ hmap,
      ← List.map_take, List.take_range, min_eq_left (by omega : m + 1 ≤ steps),
      prod_map_range]

lemma cumprod_replicate (m : ℕ) (c : ℝ) :
    cumprod (List.replicate m c) = (List.range m).map (fun k => c ^ (k + 1)) := by
  apply List.ext_getElem
  · simp [cumprod_length]
  · intro n h1 h2
    have hn : n < m := by simpa [cumprod_length] using h1
    rw [← List.getD_eq_getElem _ 0 h1, cumprod_getD _ _ (by simpa using hn),
      List.take_replicate, List.prod_replicate, List.getElem_map, List.getElem_range,
      min_eq_left (by omega : n + 1 ≤ m)]

lemma gbm_path_zero_vol (o : BarrierOption) (steps : ℕ) (Z : ℕ → ℝ)
    (hvol : o.volatility = 0) :
    gbm_path o steps Z =
      o.S0 :: (List.range steps).map
        (fun k : ℕ => o.S0 * Real.exp (o.risk_free_rate * o.T * ((k : ℝ) + 1) / steps)) := by
  simp only [gbm_path]
  congr 1
  have h1 : ((List.range steps).map fun j =>
      Real.exp ((o.risk_free_rate - 0.5 * o.volatility ^ 2) * (o.T / steps) +
        o.volatility * Real.sqrt (o.T / steps) * Z j)) =
      (List.range steps).map (fun _ => Real.exp (o.risk_free_rate * (o.T / steps))) :=
    List.map_congr_left (fun j _ => by rw [hvol]; norm_num)
  rw [h1, List.map_const', List.length_range, cumprod_replicate, List.map_map]
  refine List.map_congr_left (fun k hk => ?_)
  show o.S0 * Real.exp (o.risk_free_rate * (o.T / steps)) ^ (k + 1) =
    o.S0 * Real.exp (o.risk_free_rate * o.T * ((k : ℝ) + 1) / steps)
  rw [← Real.exp_nat_mul]
  have harg : ((k + 1 : ℕ) : ℝ) * (o.risk_free_rate * (o.T / steps)) =
      o.risk_free_rate * o.T * ((k : ℝ) + 1) / steps := by
    push_cast; ring
  rw [harg]

lemma gbm_batch_zero_vol (o : BarrierOption) (steps num_iters : ℕ) (Z : ℕ → ℕ → ℝ)
    (hvol : o.volatility = 0) :
    gbm_batch o steps num_iters Z =
      List.replicate num_iters
        (o.S0 :: (List.range steps).map
          (fun k : ℕ => o.S0 * Real.exp (o.risk_free_rate * o.T * ((k : ℝ) + 1) / steps))) := by
  rw [gbm_batch,
    List.map_congr_left (fun i _ => gbm_path_zero_vol o steps (Z i) hvol),
    List.map_const', List.length_range]

lemma vanilla_payoff_nonneg (o : BarrierOption) (s : ℝ) : 0 ≤ vanilla_payoff o s := by
  unfold vanilla_payoff
  split_ifs <;> exact le_max_right _ _

lemma code_path_payoff_nonneg (o : BarrierOption) (p : List ℝ) :
    0 ≤ code_path_payoff o p := by
  unfold code_path_payoff
  split_ifs <;> first | exact le_refl 0 | exact vanilla_payoff_nonneg o _

/-- A concrete contract the constructor accepts: up-and-out call,
`S0 = 100, K = 100, B = 90, T = 1, σ = 1/5, r = 1/20`. -/
noncomputable def exampleOpt : BarrierOption :=
  ⟨"call", "up_and_out", 100, 100, 90, 1, 1/5, 1/20⟩

/-- A concrete zero-volatility contract: down-and-in put,
`S0 = 100, K = 100, B = 120, T = 1, σ = 0, r = 1/20`. -/
noncomputable def exampleOptFlat : BarrierOption :=
  ⟨"put", "down_and_in", 100, 100, 120, 1, 0, 1/20⟩

lemma exampleOpt_valid : ValidContract exampleOpt :=
  ⟨Or.inl rfl, Or.inl rfl, by norm_num [exampleOpt], by norm_num [exampleOpt]⟩

/-! ### Claim theorems -/

/-- C1: for every valid contract, every payoff vector of length
`num_paths ≥ 1`, any risk-free rate and positive maturity, the pricing step
(elementwise discounting followed by `np.mean`, lines 179-181) returns the
arithmetic mean over all `i` of `payoff[i] · exp(−risk_free_rate · T)`. -/
theorem pricing_step_discounted_mean (o : BarrierOption) (payoffs : List ℝ)
    (_hval : ValidContract o) (_hlen : 1 ≤ payoffs.length) (_hT : 0 < o.T) :
    npMean (present_value o payoffs) =
      (∑ i ∈ Finset.range payoffs.length,
          payoffs.getD i 0 * Real.exp (-o.risk_free_rate * o.T)) /
        payoffs.length := by
  rw [npMean, present_value, List.length_map]
  congr 1
  rw [list_sum_eq_sum_getD, List.length_map]
  refine Finset.sum_congr rfl (fun i hi => ?_)
  have hi' : i < payoffs.length := Finset.mem_range.mp hi
  rw [List.getD_eq_getElem _ _ (by simpa using hi'), List.getElem_map,
    List.getD_eq_getElem _ _ hi']

/-- Witness for C1: the concrete contract `exampleOpt` and payoff vector `[3, 5]`. -/
theorem pricing_step_discounted_mean_witness :
    npMean (present_value exampleOpt [3, 5]) =
      (∑ i ∈ Finset.range ([3, 5] : List ℝ).length,
          ([3, 5] : List ℝ).getD i 0 *
            Real.exp (-exampleOpt.risk_free_rate * exampleOpt.T)) /
        ([3, 5] : List ℝ).length :=
  pricing_step_discounted_mean exampleOpt [3, 5] exampleOpt_valid
    (by norm_num) (by norm_num [exampleOpt])

/-- C2: for every path in the batch, the per-path payoff follows the
combination rule: `*_and_out` pays the vanilla payoff iff the barrier was not
activated (else 0), `*_and_in` pays it iff activated (else 0), where the
vanilla payoff is computed from the last path element only as
`max(final − strike, 0)` for a call and `max(strike − final, 0)` for a put. -/
theorem contract_payoff_combination_rule (o : BarrierOption) (paths : List (List ℝ))
    (i : ℕ) (hi : i < paths.length)
    (_hopt : o.option_type = "call" ∨ o.option_type = "put") :
    (contract_payoff o paths).getD i 0 =
      if o.barrier_type = "up_and_out" then
        (if o.B ≤ npMax (paths.getD i []) then 0
         else if o.option_type = "call" then max (npLast (paths.getD i []) - o.K) 0
         else max (o.K - npLast (paths.getD i [])) 0)
      else if o.barrier_type = "up_and_in" then
        (if o.B ≤ npMax (paths.getD i [])
         then (if o.option_type = "call" then max (npLast (paths.getD i []) - o.K) 0
               else max (o.K - npLast (paths.getD i [])) 0)
         else 0)
      else if o.barrier_type = "down_and_out" then
        (if npMin (paths.getD i []) ≤ o.B then 0
         else if o.option_type = "call" then max (npLast (paths.getD i []) - o.K) 0
         else max (o.K - npLast (paths.getD i [])) 0)
      else
        (if npMin (paths.getD i []) ≤ o.B
         then (if o.option_type = "call" then max (npLast (paths.getD i []) - o.K) 0
               else max (o.K - npLast (paths.getD i [])) 0)
         else 0) := by
  rw [contract_payoff_getD o paths i hi]
  unfold code_path_payoff upBarrierReached downBarrierReached vanilla_payoff
  simp only [ge_iff_le, ite_one_zero_eq_one, ite_one_zero_eq_zero, not_le]
  split_ifs <;> simp_all <;> linarith

/-- Witness for C2: an up-and-out call on a knocked-out path (max 130 ≥ B = 90),
whose payoff therefore evaluates to 0. -/
theorem contract_payoff_combination_rule_witness :
    (contract_payoff exampleOpt [[100, 130], [100, 80]]).getD 0 0 = 0 := by
  refine (contract_payoff_combination_rule exampleOpt [[100, 130], [100, 80]] 0
    (by norm_num) (Or.inl rfl)).trans ?_
  norm_num [exampleOpt, npMax, List.foldl]

/-- C3: barrier activation is an inclusive comparison over the whole path:
Up-type activation is `npMax path ≥ B` and Down-type is `npMin path ≤ B`;
a path whose maximum equals `B` exactly is activated, and since element 0 of a
generated path is the initial price, a contract whose initial price already
breaches the barrier is activated at time zero. -/
theorem barrier_activation_inclusive (o : BarrierOption) (steps : ℕ) (Z : ℕ → ℝ) :
    (∀ p : List ℝ, upBarrierReached o p = 1 ↔ o.B ≤ npMax p) ∧
    (∀ p : List ℝ, downBarrierReached o p = 1 ↔ npMin p ≤ o.B) ∧
    (∀ p : List ℝ, npMax p = o.B → upBarrierReached o p = 1) ∧
    (gbm_path o steps Z).getD 0 0 = o.S0 ∧
    (o.B ≤ o.S0 → upBarrierReached o (gbm_path o steps Z) = 1) ∧
    (o.S0 ≤ o.B → downBarrierReached o (gbm_path o steps Z) = 1) := by
  have hup : ∀ p : List ℝ, upBarrierReached o p = 1 ↔ o.B ≤ npMax p := by
    intro p; rw [upBarrierReached]; exact ite_one_zero_eq_one _
  have hdown : ∀ p : List ℝ, downBarrierReached o p = 1 ↔ npMin p ≤ o.B := by
    intro p; rw [downBarrierReached]; exact ite_one_zero_eq_one _
  have hcons : gbm_path o steps Z =
      o.S0 :: (cumprod ((List.range steps).map (fun j =>
        Real.exp ((o.risk_free_rate - 0.5 * o.volatility ^ 2) * (o.T / steps) +
          o.volatility * Real.sqrt (o.T / steps) * Z j)))).map (fun c => o.S0 * c) := rfl
  refine ⟨hup, hdown, fun p hp => (hup p).mpr (le_of_eq hp.symm), by simp [gbm_path],
    fun hB => (hup _).mpr ?_, fun hB => (hdown _).mpr ?_⟩
  · rw [hcons]; exact le_trans hB (le_npMax_head _ _)
  · rw [hcons]; exact le_trans (npMin_head_le _ _) hB

/-- Witness for C3: `exampleOpt` has `B = 90 ≤ S0 = 100`, so its generated
paths are activated at time zero. -/
theorem barrier_activation_inclusive_witness :
    upBarrierReached exampleOpt (gbm_path exampleOpt 2 (fun _ => 0)) = 1 :=
  (barrier_activation_inclusive exampleOpt 2 (fun _ => 0)).2.2.2.2.1
    (by norm_num [exampleOpt])

/-- C4: for `steps ≥ 1` and `num_paths ≥ 1` the generated batch has
`num_paths` paths of length `steps + 1`; element 0 of each path is exactly
`initial_price`, and element `k` (`1 ≤ k ≤ steps`) is `initial_price` times
the product of the first `k` per-step factors
`exp((r − 0.5·σ²)·dt + σ·sqrt(dt)·Z)` with `dt = T/steps`
(the `k` draws being `Z i 0, …, Z i (k-1)`). -/
theorem gbm_batch_paths_spec (o : BarrierOption) (steps num_iters : ℕ) (Z : ℕ → ℕ → ℝ)
    (_hs : 1 ≤ steps) (_hn : 1 ≤ num_iters) :
    (gbm_batch o steps num_iters Z).length = num_iters ∧
    ∀ i, i < num_iters →
      ((gbm_batch o steps num_iters Z).getD i []).length = steps + 1 ∧
      ((gbm_batch o steps num_iters Z).getD i []).getD 0 0 = o.S0 ∧
      ∀ k, 1 ≤ k → k ≤ steps →
        ((gbm_batch o steps num_iters Z).getD i []).getD k 0 =
          o.S0 * ∏ j ∈ Finset.range k,
            Real.exp ((o.risk_free_rate - 0.5 * o.volatility ^ 2) * (o.T / steps) +
              o.volatility * Real.sqrt (o.T / steps) * Z i j) := by
  refine ⟨by simp [gbm_batch], fun i hi => ?_⟩
  rw [gbm_batch_getD o steps num_iters Z i hi]
  exact ⟨gbm_path_length o steps (Z i), by simp [gbm_path],
    fun k hk1 hk2 => gbm_path_getD o steps (Z i) k hk1 hk2⟩

/-- Witness for C4: `exampleOpt` with one step, one path and zero draws. -/
theorem gbm_batch_paths_spec_witness :
    (gbm_batch exampleOpt 1 1 (fun _ _ => 0)).length = 1 ∧
    ∀ i, i < 1 →
      ((gbm_batch exampleOpt 1 1 (fun _ _ => 0)).getD i []).length = 1 + 1 ∧
      ((gbm_batch exampleOpt 1 1 (fun _ _ => 0)).getD i []).getD 0 0 = exampleOpt.S0 ∧
      ∀ k, 1 ≤ k → k ≤ 1 →
        ((gbm_batch exampleOpt 1 1 (fun _ _ => 0)).getD i []).getD k 0 =
          exampleOpt.S0 * ∏ j ∈ Finset.range k,
            Real.exp ((exampleOpt.risk_free_rate - 0.5 * exampleOpt.volatility ^ 2) *
                (exampleOpt.T / ((1 : ℕ) : ℝ)) +
              exampleOpt.volatility * Real.sqrt (exampleOpt.T / ((1 : ℕ) : ℝ)) *
                (fun _ _ => (0 : ℝ)) i j) :=
  gbm_batch_paths_spec exampleOpt 1 1 (fun _ _ => 0) (by norm_num) (by norm_num)

/-- C5 counterexample: construction succeeds with a negative `initial_price`
and negative `maturity_years` — the constructor never validates the
price-like or time fields, contradicting the claim that it must fail. -/
theorem mk_accepts_nonpositive_fields :
    mkBarrierOption "call" "up_and_out" (-100) 100 120 (-1) (1/5) (1/20) =
      Except.ok ⟨"call", "up_and_out", -100, 100, 120, -1, 1/5, 1/20⟩ := by
  have h1 : ¬(("call" : String) ≠ "call" ∧ ("call" : String) ≠ "put") := by simp
  have h2 : ¬(("up_and_out" : String) ≠ "up_and_out" ∧
      ("up_and_out" : String) ≠ "down_and_out" ∧
      ("up_and_out" : String) ≠ "up_and_in" ∧
      ("up_and_out" : String) ≠ "down_and_in") := by simp
  have h3 : ¬((1/5 : ℝ) < 0 ∨ (1/5 : ℝ) > 1) := by norm_num
  unfold mkBarrierOption
  rw [if_neg h1, if_neg h2, if_neg h3]

/-- C5 amended: construction fails (with the InvalidContract outcome) exactly
when the option kind or barrier kind is unrecognized or volatility lies
outside `[0, 1]`; the price-like fields and the maturity are stored
unvalidated and unclamped, whatever their sign. -/
theorem mk_validation_characterization (ot bt : String)
    (S0 K B T volatility risk_free_rate : ℝ) :
    mkBarrierOption ot bt S0 K B T volatility risk_free_rate =
      if (ot = "call" ∨ ot = "put") ∧
          (bt = "up_and_out" ∨ bt = "down_and_out" ∨ bt = "up_and_in" ∨
            bt = "down_and_in") ∧
          0 ≤ volatility ∧ volatility ≤ 1 then
        Except.ok ⟨ot, bt, S0, K, B, T, volatility, risk_free_rate⟩
      else Except.error EngineError.invalidContract := by
  by_cases h : (ot = "call" ∨ ot = "put") ∧
      (bt = "up_and_out" ∨ bt = "down_and_out" ∨ bt = "up_and_in" ∨
        bt = "down_and_in") ∧
      0 ≤ volatility ∧ volatility ≤ 1
  · rw [if_pos h]
    obtain ⟨ho, hb, hv0, hv1⟩ := h
    unfold mkBarrierOption
    rw [if_neg (by tauto), if_neg (by tauto), if_neg (by push_neg; exact ⟨hv0, hv1⟩)]
  · rw [if_neg h]
    unfold mkBarrierOption
    by_cases h1 : ot ≠ "call" ∧ ot ≠ "put"
    · rw [if_pos h1]
    · rw [if_neg h1]
      by_cases h2 : bt ≠ "up_and_out" ∧ bt ≠ "down_and_out" ∧ bt ≠ "up_and_in" ∧
          bt ≠ "down_and_in"
      · rw [if_pos h2]
      · rw [if_neg h2]
        have h3 : volatility < 0 ∨ volatility > 1 := by
          by_contra h3
          push_neg at h3
          exact h ⟨by tauto, by tauto, h3.1, h3.2⟩
        rw [if_pos h3]

lemma contract_payoff_nil (o : BarrierOption) : contract_payoff o [] = [] := by
  unfold contract_payoff
  split_ifs <;> rfl

/-- C6 counterexample: with `steps = 1` and `num_paths = 0` the pricing call
does not fail at all — it completes and returns the empty mean (0 in this
real-number model, `NaN` in numpy), so no InvalidGrid error is raised. -/
theorem pricing_no_invalid_grid_counterexample :
    monte_carlo_pricing_run exampleOpt 1 0 (fun _ _ => 0) = Except.ok 0 := by
  unfold monte_carlo_pricing_run
  rw [if_neg (by norm_num : (1 : ℕ) ≠ 0)]
  have hb : gbm_batch exampleOpt 1 0 (fun _ _ => 0) = [] := by simp [gbm_batch]
  unfold monte_carlo_pricing price_of_batch
  rw [hb, contract_payoff_nil]
  simp [present_value, npMean]

/-- C6 amended: the pricing operation performs no grid validation: it never
produces an InvalidGrid error for any grid; `steps = 0` fails with the
ZeroDivisionError raised by `self.T/steps` (before any sampling), and
`num_paths = 0` with `steps ≥ 1` completes normally, returning the empty mean. -/
theorem pricing_run_never_invalid_grid (o : BarrierOption) (steps num_iters : ℕ)
    (Z : ℕ → ℕ → ℝ) :
    monte_carlo_pricing_run o steps num_iters Z ≠
      Except.error EngineError.invalidGrid ∧
    monte_carlo_pricing_run o 0 num_iters Z =
      Except.error EngineError.zeroDivision ∧
    monte_carlo_pricing_run o (steps + 1) 0 Z =
      Except.ok (monte_carlo_pricing o (steps + 1) 0 Z) := by
  refine ⟨?_, ?_, ?_⟩
  · unfold monte_carlo_pricing_run
    split_ifs <;> simp
  · unfold monte_carlo_pricing_run
    simp
  · unfold monte_carlo_pricing_run
    simp

/-- C7: on any fixed batch, the up-and-out and up-and-in prices (all other
contract fields equal) sum to the discounted mean vanilla payoff of the batch,
and likewise for the down variants. -/
theorem in_out_complementarity (o : BarrierOption) (batch : List (List ℝ))
    (_hval : ValidContract o) :
    (price_of_batch { o with barrier_type := "up_and_out" } batch +
        price_of_batch { o with barrier_type := "up_and_in" } batch =
      npMean (present_value o (batch.map (fun p => vanilla_payoff o (npLast p))))) ∧
    (price_of_batch { o with barrier_type := "down_and_out" } batch +
        price_of_batch { o with barrier_type := "down_and_in" } batch =
      npMean (present_value o (batch.map (fun p => vanilla_payoff o (npLast p))))) := by
  have key : ∀ f g : List ℝ → ℝ, (∀ p, f p + g p = vanilla_payoff o (npLast p)) →
      npMean (present_value o (batch.map f)) + npMean (present_value o (batch.map g)) =
        npMean (present_value o (batch.map (fun p => vanilla_payoff o (npLast p)))) := by
    intro f g hfg
    unfold npMean present_value
    simp only [List.map_map, List.length_map, Function.comp_def]
    rw [div_add_div_same]
    congr 1
    rw [List.sum_map_mul_right, List.sum_map_mul_right, List.sum_map_mul_right,
      ← add_mul]
    congr 1
    rw [← sum_map_add]
    exact congrArg List.sum (List.map_congr_left (fun p _ => hfg p))
  constructor
  · have e1 : contract_payoff { o with barrier_type := "up_and_out" } batch =
        batch.map (fun p =>
          if upBarrierReached o p = 1 then 0 else vanilla_payoff o (npLast p)) := by
      rw [contract_payoff_eq_map]
      refine List.map_congr_left (fun p _ => ?_)
      simp [code_path_payoff, upBarrierReached, vanilla_payoff]
    have e2 : contract_payoff { o with barrier_type := "up_and_in" } batch =
        batch.map (fun p =>
          if upBarrierReached o p = 0 then 0 else vanilla_payoff o (npLast p)) := by
      rw [contract_payoff_eq_map]
      refine List.map_congr_left (fun p _ => ?_)
      simp [code_path_payoff, upBarrierReached, vanilla_payoff]
    unfold price_of_batch
    rw [e1, e2]
    refine key _ _ (fun p => ?_)
    unfold upBarrierReached
    split_ifs <;> simp_all
  · have e1 : contract_payoff { o with barrier_type := "down_and_out" } batch =
        batch.map (fun p =>
          if downBarrierReached o p = 1 then 0 else vanilla_payoff o (npLast p)) := by
      rw [contract_payoff_eq_map]
      refine List.map_congr_left (fun p _ => ?_)
      simp [code_path_payoff, downBarrierReached, vanilla_payoff]
    have e2 : contract_payoff { o with barrier_type := "down_and_in" } batch =
        batch.map (fun p =>
          if downBarrierReached o p = 0 then 0 else vanilla_payoff o (npLast p)) := by
      rw [contract_payoff_eq_map]
      refine List.map_congr_left (fun p _ => ?_)
      simp [code_path_payoff, downBarrierReached, vanilla_payoff]
    unfold price_of_batch
    rw [e1, e2]
    refine key _ _ (fun p => ?_)
    unfold downBarrierReached
    split_ifs <;> simp_all

/-- Witness for C7: a two-path batch under the concrete contract `exampleOpt`. -/
theorem in_out_complementarity_witness :
    (price_of_batch { exampleOpt with barrier_type := "up_and_out" }
          [[100, 130], [100, 80]] +
        price_of_batch { exampleOpt with barrier_type := "up_and_in" }
          [[100, 130], [100, 80]] =
      npMean (present_value exampleOpt
        (([[100, 130], [100, 80]] : List (List ℝ)).map
          (fun p => vanilla_payoff exampleOpt (npLast p))))) ∧
    (price_of_batch { exampleOpt with barrier_type := "down_and_out" }
          [[100, 130], [100, 80]] +
        price_of_batch { exampleOpt with barrier_type := "down_and_in" }
          [[100, 130], [100, 80]] =
      npMean (present_value exampleOpt
        (([[100, 130], [100, 80]] : List (List ℝ)).map
          (fun p => vanilla_payoff exampleOpt (npLast p))))) :=
  in_out_complementarity exampleOpt [[100, 130], [100, 80]] exampleOpt_valid

lemma contract_payoff_mem_nonneg (o : BarrierOption) (l : List (List ℝ)) :
    ∀ x ∈ contract_payoff o l, 0 ≤ x := by
  intro x hx
  rw [contract_payoff_eq_map] at hx
  obtain ⟨p, _, rfl⟩ := List.mem_map.mp hx
  exact code_path_payoff_nonneg o p

/-- C8: for every valid contract and every simulation outcome, the returned
price estimate is nonnegative. -/
theorem price_estimate_nonneg (o : BarrierOption) (steps num_iters : ℕ)
    (Z : ℕ → ℕ → ℝ) (_hval : ValidContract o) (_hs : 1 ≤ steps) (_hn : 1 ≤ num_iters) :
    0 ≤ monte_carlo_pricing o steps num_iters Z := by
  unfold monte_carlo_pricing price_of_batch npMean
  refine div_nonneg (List.sum_nonneg ?_) (Nat.cast_nonneg _)
  intro x hx
  unfold present_value at hx
  obtain ⟨v, hv, rfl⟩ := List.mem_map.mp hx
  exact mul_nonneg (contract_payoff_mem_nonneg o _ v hv) (Real.exp_nonneg _)

/-- Witness for C8: the concrete contract `exampleOpt`, one step, one path. -/
theorem price_estimate_nonneg_witness :
    0 ≤ monte_carlo_pricing exampleOpt 1 1 (fun _ _ => 0) :=
  price_estimate_nonneg exampleOpt 1 1 (fun _ _ => 0) exampleOpt_valid
    (by norm_num) (by norm_num)

/-- C9: with volatility 0 every simulated path is the same deterministic
forward path — element `k` is `S0 · exp(r·T·k/steps)` — independent of the
draws, and the price estimate reduces to the discounted payoff of that single
path. -/
theorem zero_volatility_deterministic (o : BarrierOption) (steps num_iters : ℕ)
    (Z W : ℕ → ℕ → ℝ) (hvol : o.volatility = 0) (_hs : 1 ≤ steps)
    (hn : 1 ≤ num_iters) :
    (∀ i, i < num_iters →
      (gbm_batch o steps num_iters Z).getD i [] =
        o.S0 :: (List.range steps).map
          (fun k : ℕ =>
            o.S0 * Real.exp (o.risk_free_rate * o.T * ((k : ℝ) + 1) / steps))) ∧
    monte_carlo_pricing o steps num_iters Z =
      monte_carlo_pricing o steps num_iters W ∧
    monte_carlo_pricing o steps num_iters Z =
      (contract_payoff o [o.S0 :: (List.range steps).map
          (fun k : ℕ =>
            o.S0 * Real.exp (o.risk_free_rate * o.T * ((k : ℝ) + 1) / steps))]).headI *
        Real.exp (-o.risk_free_rate * o.T) := by
  have hprice : ∀ Y : ℕ → ℕ → ℝ, monte_carlo_pricing o steps num_iters Y =
      code_path_payoff o (o.S0 :: (List.range steps).map
          (fun k : ℕ =>
            o.S0 * Real.exp (o.risk_free_rate * o.T * ((k : ℝ) + 1) / steps))) *
        Real.exp (-o.risk_free_rate * o.T) := by
    intro Y
    unfold monte_carlo_pricing price_of_batch
    rw [gbm_batch_zero_vol o steps num_iters Y hvol, contract_payoff_eq_map,
      List.map_replicate]
    unfold present_value
    rw [List.map_replicate, npMean_replicate _ _ (by omega)]
  have hsingle : (contract_payoff o [o.S0 :: (List.range steps).map
      (fun k : ℕ =>
        o.S0 * Real.exp (o.risk_free_rate * o.T * ((k : ℝ) + 1) / steps))]).headI =
      code_path_payoff o (o.S0 :: (List.range steps).map
        (fun k : ℕ =>
          o.S0 * Real.exp (o.risk_free_rate * o.T * ((k : ℝ) + 1) / steps))) := by
    rw [contract_payoff_eq_map]
    rfl
  refine ⟨fun i hi => ?_, (hprice Z).trans (hprice W).symm,
    (hprice Z).trans (by rw [hsingle])⟩
  rw [gbm_batch_getD o steps num_iters Z i hi, gbm_path_zero_vol o steps (Z i) hvol]

/-- Witness for C9: the zero-volatility contract `exampleOptFlat` with one
step, one path and two different draw matrices. -/
theorem zero_volatility_deterministic_witness :
    (∀ i, i < 1 →
      (gbm_batch exampleOptFlat 1 1 (fun _ _ => 0)).getD i [] =
        exampleOptFlat.S0 :: (List.range 1).map
          (fun k : ℕ =>
            exampleOptFlat.S0 * Real.exp (exampleOptFlat.risk_free_rate *
              exampleOptFlat.T * ((k : ℝ) + 1) / ((1 : ℕ) : ℝ)))) ∧
    monte_carlo_pricing exampleOptFlat 1 1 (fun _ _ => 0) =
      monte_carlo_pricing exampleOptFlat 1 1 (fun _ _ => 1) ∧
    monte_carlo_pricing exampleOptFlat 1 1 (fun _ _ => 0) =
      (contract_payoff exampleOptFlat [exampleOptFlat.S0 :: (List.range 1).map
          (fun k : ℕ =>
            exampleOptFlat.S0 * Real.exp (exampleOptFlat.risk_free_rate *
              exampleOptFlat.T * ((k : ℝ) + 1) / ((1 : ℕ) : ℝ)))]).headI *
        Real.exp (-exampleOptFlat.risk_free_rate * exampleOptFlat.T) :=
  zero_volatility_deterministic exampleOptFlat 1 1 (fun _ _ => 0) (fun _ _ => 1)
    rfl (by norm_num) (by norm_num)

/-- C10: two calls with identical contract, identical grid and the same
explicit seed return identical price estimates, independently of the global
generator state existing before each call: the seeded call first resets the
process-global source from the seed, and the draws are a deterministic
function of that state. -/
theorem seeded_pricing_deterministic (sample : RNGState → ℕ → ℕ → ℝ)
    (o : BarrierOption) (steps num_iters : ℕ) (prev1 prev2 : RNGState) (s : ℕ) :
    monte_carlo_pricing_seeded sample o steps num_iters prev1 (some s) =
      monte_carlo_pricing_seeded sample o steps num_iters prev2 (some s) := rfl

end BarrierOptions
